import Mathlib

/-!
Shallow embedding of `src/scripts/clj-declare-analy.py`, a lint tool that
scans Clojure files for symbols called before their definition line without
a forward `(declare ...)`.  Python strings are modelled as `List Char`
(the source reads text with `errors='ignore'`, so content is plain text),
Python dicts as in-place-update association lists, Python sets as lists
used only through membership, and the regular expressions of the source as
explicit character-level matchers whose backtracking behaviour is spelled
out at each definition.
-/

namespace CljAnaly

/-- Python `\s` / `str.strip()` whitespace, restricted to the ASCII range
(all inputs of interest are ASCII). -/
def py_space (c : Char) : Bool :=
  c = ' ' || c = '\t' || c = '\n' || c = '\r' || c = '\x0b' || c = '\x0c'

/-- Characters admitted by the `[^\s\)]` character class used by the
`ns`/`def` capture groups and by the declare tokenizer. -/
def sym_char (c : Char) : Bool := !(py_space c || c = ')')

/-- Python `str.split('\n')`. -/
def py_split_lines (cs : List Char) : List (List Char) :=
  cs.foldr
    (fun c acc =>
      match acc with
      | cur :: rest => if c = '\n' then [] :: cur :: rest else (c :: cur) :: rest
      | [] => [[c]])
    [[]]

/-- Python `str.strip()` (whitespace from both ends). -/
def py_strip (cs : List Char) : List Char :=
  ((cs.dropWhile py_space).reverse.dropWhile py_space).reverse

/-- Run an anchored matcher at every position of the text, left to right;
`re.search` is the head of this list, `re.finditer` is the whole list for
the patterns of the source whose matches can never overlap. -/
def search_all (f : List Char → Option α) (cs : List Char) : List α :=
  cs.tails.filterMap f

/-- `re.search`: the leftmost match of an anchored matcher. -/
def search_first (f : List Char → Option α) (cs : List Char) : Option α :=
  (search_all f cs).head?

/-- Anchored matcher for `\(ns\s+([^\s\)]+)` (source line 46): literal
`(ns`, at least one whitespace, then the maximal nonempty run of
non-whitespace non-`)` characters.  Shortening the whitespace run cannot
rescue a failed match because `[^\s\)]` rejects whitespace, so maximal-run
matching is exact. -/
def ns_match_at : List Char → Option (List Char)
  | '(' :: 'n' :: 's' :: rest =>
    match rest with
    | c :: _ =>
      if py_space c then
        let g := (rest.dropWhile py_space).takeWhile sym_char
        if g.isEmpty then none else some g
      else none
    | [] => none
  | _ => none

/-- Python `s.split('.')[-1]`: the segment after the last dot (the whole
string when no dot occurs). -/
def last_dot_seg (s : String) : String :=
  String.mk (s.data.foldl (fun acc c => if c = '.' then [] else acc.concat c) [])

/-- Matcher for `:require\s+\[([^\]]+)\]` (source line 54) at one
position: returns the captured bracket body and the remaining text after
the whole match.  The `\s+` must be followed directly by `[` (whitespace
can never satisfy `\[`), the greedy `[^\]]+` body stops at the first `]`,
which must exist and the body must be nonempty. -/
def req_match_at : List Char → Option (List Char × List Char)
  | ':' :: 'r' :: 'e' :: 'q' :: 'u' :: 'i' :: 'r' :: 'e' :: rest =>
    match rest with
    | c :: _ =>
      if py_space c then
        match rest.dropWhile py_space with
        | '[' :: body_rest =>
          let body := body_rest.takeWhile (fun c => c ≠ ']')
          if body.isEmpty then none
          else
            match body_rest.drop body.length with
            | ']' :: after => some (body, after)
            | _ => none
        | _ => none
      else none
    | [] => none
  | _ => none

/-- `re.findall(r':as\s+(\S+)', body)` (source line 58): non-overlapping
left-to-right matches; a failed attempt advances one character, a
successful one resumes after the captured token.  The fuel argument is the
length of the scanned text (every step consumes at least one character). -/
def as_aliases : Nat → List Char → List String
  | 0, _ => []
  | _, [] => []
  | fuel + 1, cs =>
    match cs with
    | ':' :: 'a' :: 's' :: t =>
      match t with
      | d :: _ =>
        if py_space d then
          let t' := t.dropWhile py_space
          let tok := t'.takeWhile (fun c => !py_space c)
          if tok.isEmpty then as_aliases fuel (cs.drop 1)
          else String.mk tok :: as_aliases fuel (t'.drop tok.length)
        else as_aliases fuel (cs.drop 1)
      | [] => as_aliases fuel (cs.drop 1)
    | _ :: _ => as_aliases fuel (cs.drop 1)
    | [] => []

/-- `re.finditer` over the whole content for the `:require` pattern
(source lines 55-60), collecting every `:as` alias; failed attempts
advance one character, successful matches resume after their end. -/
def require_aliases : Nat → List Char → List String
  | 0, _ => []
  | _, [] => []
  | fuel + 1, cs =>
    match req_match_at cs with
    | some (body, after) => as_aliases body.length body ++ require_aliases fuel after
    | none => require_aliases fuel (cs.drop 1)

/-- Recognized namespace strings of a file (source lines 46-60): the
`(ns ...)` name and its last dotted segment, plus every `:as` alias of a
`:require` clause.  Modelled as a list read only through membership, as
the Python `set` is. -/
def ns_of (content : List Char) : List String :=
  let base :=
    match search_first ns_match_at content with
    | some n => [String.mk n, last_dot_seg (String.mk n)]
    | none => []
  base ++ require_aliases content.length content

/-- Tail of the definition matcher: `\s+([^\s\)]+)` — at least one
whitespace character, then the maximal nonempty run of non-whitespace
non-`)` characters (shorter whitespace runs cannot rescue a failure, since
the capture class rejects whitespace). -/
def def_tail_match (t : List Char) : Option (List Char) :=
  match t with
  | c :: _ =>
    if py_space c then
      if ((t.dropWhile py_space).takeWhile sym_char).isEmpty then none
      else some ((t.dropWhile py_space).takeWhile sym_char)
    else none
  | [] => none

/-- Anchored matcher for `\(def(?:n)?\s+([^\s\)]+)` (source line 71):
literal `(def`, an optional `n` (tried greedily first, with the empty
alternative as backtracking fallback), then `def_tail_match`. -/
def def_match_at : List Char → Option (List Char)
  | '(' :: 'd' :: 'e' :: 'f' :: rest =>
    match rest with
    | 'n' :: rest' => (def_tail_match rest').orElse (fun _ => def_tail_match rest)
    | _ => def_tail_match rest
  | _ => none

/-- Python `\w` for the inputs at hand (ASCII letters, digits, underscore)
together with `:`, i.e. the `[:\w]` class of the metadata pattern. -/
def word_colon (c : Char) : Bool := c.isAlphanum || c = '_' || c = ':'

/-- `re.sub(r'^\^?[:\w]+\s+', '', symbol)` (source line 75): an anchored
optional `^`, a nonempty greedy run of `[:\w]` characters that must be
followed by at least one whitespace character, all removed together with
the whitespace run.  Shortening the `[:\w]+` run cannot rescue a failure
(`\s` rejects `[:\w]` characters), and when the leading `^` alternative
fails the empty alternative fails as well because `^` is not in `[:\w]`. -/
def meta_sub_core (t : List Char) : Option (List Char) :=
  if (t.takeWhile word_colon).isEmpty then none
  else
    match t.drop (t.takeWhile word_colon).length with
    | c :: rest => if py_space c then some (rest.dropWhile py_space) else none
    | [] => none

/-- The full substitution of source line 75 (identity when the pattern
does not match, which is in fact always the case on the whitespace-free
capture of `def_match_at`): when the string starts with `^` the `\^?`
alternative consuming it is tried first, with the empty alternative as
backtracking fallback. -/
def meta_sub (s : List Char) : List Char :=
  match meta_sub_core (if s.head? = some '^' then s.drop 1 else s) with
  | some r => r
  | none =>
    match meta_sub_core s with
    | some r => r
    | none => s

/-- Source lines 71-77: the symbol a (stripped, non-comment) line records
as a definition, if any — the first `\(def(?:n)?\s+([^\s\)]+)` match,
with the metadata substitution and `strip()` applied, kept when nonempty
and not starting with `(`. -/
def def_event (stripped : List Char) : Option String :=
  (search_first def_match_at stripped).bind fun g =>
    let s := py_strip (meta_sub g)
    if s.isEmpty then none
    else match s with
      | '(' :: _ => none
      | _ => some (String.mk s)

/-- Anchored matcher for `\(declare\s+([^\)]+)\)` (source line 80):
literal `(declare`, a first whitespace character (the `\s+`), and the run
up to the first following `)` — which must exist, and must leave at least
one character for the `[^\)]+` capture after a one-character `\s+`.
Returns the full run between `(declare` and that `)`; the tokens extracted
from it are invariant under how `\s+` and `[^\)]+` split it. -/
def declare_match_at : List Char → Option (List Char)
  | '(' :: 'd' :: 'e' :: 'c' :: 'l' :: 'a' :: 'r' :: 'e' :: rest =>
    match rest with
    | c :: _ =>
      if py_space c then
        let mid := rest.takeWhile (fun c => c ≠ ')')
        if 2 ≤ mid.length ∧ mid.length < rest.length then some mid else none
      else none
    | [] => none
  | _ => none

/-- `re.findall(r'([^\s\)]+)', s)` (source line 84): the maximal runs of
non-whitespace non-`)` characters, in order. -/
def tokenize (cs : List Char) : List String :=
  let r := cs.foldr
    (fun c (acc : List String × List Char) =>
      if sym_char c then (acc.1, c :: acc.2)
      else (if acc.2.isEmpty then acc.1 else String.mk acc.2 :: acc.1, []))
    ([], [])
  if r.2.isEmpty then r.1 else String.mk r.2 :: r.1

/-- Source lines 80-86: the symbols the first `(declare ...)` match of a
line contributes to the `declares` set. -/
def declare_syms (stripped : List Char) : List String :=
  match search_first declare_match_at stripped with
  | some mid => tokenize mid
  | none => []

/-- First character class `[a-zA-Z_\-\.\?\!]` of the call pattern
(source line 90). -/
def call_head_char (c : Char) : Bool :=
  c.isAlpha || c = '_' || c = '-' || c = '.' || c = '?' || c = '!'

/-- Continuation class `[a-zA-Z0-9_\-\.\?\!]` of the call pattern. -/
def call_tail_char (c : Char) : Bool := call_head_char c || c.isDigit

/-- Anchored matcher for `\(([a-zA-Z_\-\.\?\!]+[a-zA-Z0-9_\-\.\?\!]*)\s+`
(source line 90): a `(`, then the maximal run of continuation characters
whose first character is in the head class, followed by at least one
whitespace character.  Backtracking to a shorter run cannot rescue a
failed match because `\s` rejects every continuation character, so the
maximal-run reading is exact; and since neither the run nor the trailing
whitespace can contain `(`, distinct matches never overlap, so
`re.finditer` is exactly the set of positions where this matcher fires. -/
def call_match_at : List Char → Option String
  | '(' :: rest =>
    match rest with
    | c :: _ =>
      if call_head_char c then
        let run := rest.takeWhile call_tail_char
        match rest.drop run.length with
        | d :: _ => if py_space d then some (String.mk run) else none
        | [] => none
      else none
    | [] => none
  | _ => none

/-- The fixed exclusion list of source lines 95-150, transcribed verbatim
(duplicates included; only membership is ever used). -/
def allowlist : List String :=
  ["if", "when", "let", "fn", "def", "defn", "ns",
   "require", "import", "set!", "do", "cond", "case",
   "try", "catch", "finally", "throw", "->", "->>",
   "doto", "and", "or", "not", "nil?", "some?", "if-let",
   "when-let", "when-not", "if-not", "cond->", "cond->>",
   "some->", "some->>", "as->", "loop", "recur", "reify",
   "proxy", "extend", "extend-type", "extend-protocol",
   "deftype", "defrecord", "defprotocol", "definterface",
   "gen-class", "gen-interface", "declare", "quote",
   "var", "deref", "ref", "atom", "agent", "future",
   "delay", "promise", "locking", "monitor-enter",
   "monitor-exit", "time", "with-local-vars", "binding",
   "with-bindings", "with-redefs", "with-redefs-fn",
   "alter-var-root", "swap!", "reset!", "compare-and-set!",
   "commute", "ensure", "dosync", "io!", "sync", "ref-set",
   "alter", "commute", "ref-history-count", "ref-max-history",
   "ref-min-history", "ref-snapshots", "ref-ensure",
   "partial", "comp", "juxt", "complement", "constantly",
   "identity", "constantly", "fnil", "every-pred", "some-fn",
   "apply", "map", "mapv", "mapcat", "filter", "filterv",
   "remove", "keep", "keep-indexed", "distinct", "distinct?",
   "concat", "cons", "conj", "into", "reduce", "reductions",
   "take", "drop", "take-while", "drop-while", "split-at",
   "split-with", "partition", "partition-all", "partition-by",
   "interleave", "interpose", "cycle", "repeat", "repeatedly",
   "iterate", "range", "rest", "next", "fnext", "nnext",
   "ffirst", "nfirst", "first", "last", "butlast", "drop-last",
   "take-last", "take-nth", "nth", "nthnext", "nthrest",
   "frequencies", "group-by", "vals", "keys", "key", "val",
   "seq", "vector", "list", "hash-map", "array-map", "sorted-map",
   "sorted-map-by", "sorted-set", "sorted-set-by", "hash-set",
   "set", "contains?", "get", "get-in", "assoc", "assoc-in",
   "dissoc", "dissoc-in", "update", "update-in", "merge",
   "merge-with", "select-keys", "zipmap", "into-array",
   "to-array", "into-array", "alength", "aget", "aset",
   "make-array", "vector-of", "boolean-array", "byte-array",
   "char-array", "short-array", "int-array", "long-array",
   "float-array", "double-array", "object-array",
   "str", "string?", "keyword", "keyword?", "symbol",
   "symbol?", "name", "namespace", "ident?", "simple-ident?",
   "qualified-ident?", "qualified-keyword?", "qualified-symbol?",
   "simple-keyword?", "simple-symbol?", "gensym", "gensym",
   "format", "printf", "print", "println", "pr", "prn",
   "pr-str", "prn-str", "print-str", "println-str",
   "with-out-str", "with-in-str", "read", "read-string",
   "read-line", "line-seq", "slurp", "spit", "reader",
   "writer", "input-stream", "output-stream", "file-seq",
   "sh", "shutdown-agents", "halt-when", "halt-when!",
   "error-handler", "error-mode", "send", "send-off",
   "send-via", "restart-agent", "await", "await-for",
   "await1", "await-for1", "agent-error", "agent-errors",
   "set-error-handler!", "set-error-mode!", "error-handler",
   "error-mode", "add-watch", "remove-watch", "notify-watches",
   "add-watcher", "remove-watcher", "notify-watchers",
   "realized?", "deref", "deref", "deref", "deref",
   "realized?", "realized?", "realized?", "realized?"]

/-- Source line 154: the symbol contains a dot and does not start with
any recognized namespace string followed by a dot. -/
def dot_excluded (nss : List String) (s : String) : Bool :=
  s.data.contains '.' && !(nss.any fun n => (n ++ ".").data.isPrefixOf s.data)

/-- Source line 158: the first character is an uppercase letter, or the
symbol contains `$`. -/
def upper_or_dollar (s : String) : Bool :=
  (match s.data with | c :: _ => c.isUpper | [] => false) || s.data.contains '$'

/-- The classification step of source lines 95-159: a matched call-head
symbol is kept only when it passes all three exclusion checks.  Note it is
a function of the symbol and the namespace strings alone — the file's
definitions and declarations play no part. -/
def keep_call (nss : List String) (s : String) : Bool :=
  !(allowlist.contains s) && !(dot_excluded nss s) && !(upper_or_dollar s)

/-- Source lines 88-162: the `(line, symbol)` call entries one stripped
line contributes, in match order. -/
def calls_of_line (nss : List String) (line_num : Nat) (stripped : List Char) :
    List (Nat × String) :=
  (search_all call_match_at stripped).filterMap fun s =>
    if keep_call nss s then some (line_num, s) else none

/-- Python dict assignment `d[k] = v`: replace the value in place when the
key is present, append otherwise (insertion order preserved). -/
def dictInsert (k : String) (v : Nat) : List (String × Nat) → List (String × Nat)
  | [] => [(k, v)]
  | (k', v') :: rest => if k' = k then (k, v) :: rest else (k', v') :: dictInsert k v rest

/-- Python dict lookup / `k in d`. -/
def dictLookup : List (String × Nat) → String → Option Nat
  | [], _ => none
  | (k', v') :: rest, k => if k' = k then some v' else dictLookup rest k

/-- The extraction record `result` of `parse_file` (source lines 38-43). -/
structure ParseResult where
  definitions : List (String × Nat)
  declares : List String
  calls : List (Nat × String)
  namespaces : List String
deriving DecidableEq, Repr

/-- Source lines 63-68: the non-blank, non-comment lines, stripped, paired
with their 1-based line numbers. -/
def active_lines (content : String) : List (Nat × List Char) :=
  ((py_split_lines content.data).enumFrom 1).filterMap fun p =>
    let st := py_strip p.2
    if st.isEmpty then none
    else match st with
      | ';' :: _ => none
      | _ => some (p.1, st)

/-- `ClojureAnalyzer.parse_file` (source lines 31-164).  The single Python
loop updates the four record fields independently, so each field is the
corresponding fold over the active lines; the namespace strings are
computed from the whole content before the loop, exactly as in the
source. -/
def parse_file (content : String) : ParseResult :=
  let nss := ns_of content.data
  let acts := active_lines content
  { definitions := acts.foldl (fun d p =>
      match def_event p.2 with
      | some s => dictInsert s p.1 d
      | none => d) []
  , declares := acts.foldl (fun ds p => ds ++ declare_syms p.2) []
  , calls := acts.foldl (fun cl p => cl ++ calls_of_line nss p.1 p.2) []
  , namespaces := nss }

/-- The definition events of a file in line order: each active line's
recorded symbol, when any.  `parse_file`'s `definitions` field is the
dict-insert fold of exactly these events. -/
def def_events (content : String) : List (Nat × String) :=
  (active_lines content).filterMap fun p => (def_event p.2).map fun s => (p.1, s)

/-- The line of the textually last definition event for a symbol. -/
def last_def_line (content : String) (s : String) : Option Nat :=
  ((def_events content).reverse.find? fun e => e.2 == s).map (·.1)

/-- The message of an issue, carrying exactly the data the source
interpolates into its message string (rendered by `renderMessage`). -/
inductive Message where
  | orderViolation (symbol : String) (callLine defLine : Nat)
  | analysisError (description : String)
deriving DecidableEq, Repr

/-- The message strings of source lines 185 and 194. -/
def renderMessage : Message → String
  | .orderViolation s c d =>
    "函数 '" ++ s ++ "' 在第 " ++ toString c ++ " 行被调用，但在第 " ++
      toString d ++ " 行才定义（缺少declare）"
  | .analysisError e => "分析文件时出错: " ++ e

/-- One entry of `self.issues` (source line 19): `(file, line, message)`. -/
structure Issue where
  file : String
  line : Nat
  message : Message
deriving DecidableEq, Repr

/-- The per-call check of `analyze_file` (source lines 172-188): declared
symbols are skipped; a defined, undeclared symbol whose definition line is
strictly greater than the call line yields the violation; anything else
yields nothing. -/
def viol_check (f : String) (r : ParseResult) (c : Nat × String) : Option Issue :=
  if r.declares.contains c.2 then none
  else
    match dictLookup r.definitions c.2 with
    | some d => if c.1 < d then some ⟨f, c.1, .orderViolation c.2 c.1 d⟩ else none
    | none => none

/-- The Order-Violation Detector: the issues `analyze_file` appends for one
parsed file, in call order. -/
def detect (f : String) (r : ParseResult) : List Issue :=
  r.calls.filterMap (viol_check f r)

/-- One entry of the scanned tree: a path and its content, or the
description of the failure raised while reading it. -/
abbrev FileEntry := String × Except String String

/-- `ClojureAnalyzer.analyze_file` (source lines 166-195): on success the
detector's issues, on failure the single synthetic issue with line 0 and
the failure description. -/
def analyze_file : FileEntry → List Issue
  | (path, .ok content) => detect path (parse_file content)
  | (path, .error e) => [⟨path, 0, .analysisError e⟩]

/-- Python `needle in haystack` on strings. -/
def contains_sub (needle hay : List Char) : Bool :=
  hay.tails.any fun t => needle.isPrefixOf t

/-- `ClojureAnalyzer.find_clj_files` (source lines 21-29): the `*.clj`
paths of the tree whose full path does not contain the substring
`build`, in sorted order. -/
def find_clj_files (paths : List String) : List String :=
  List.insertionSort (· ≤ ·)
    (paths.filter fun p =>
      ".clj".data.isSuffixOf p.data && !(contains_sub "build".data p.data))

/-- The per-file loop of `analyze_directory` (source lines 202-203): the
issues of every file, concatenated in processing order. -/
def process_files (files : List FileEntry) : List Issue :=
  files.flatMap analyze_file

/-- Content lookup in the modelled tree. -/
def tree_read (tree : List (String × Except String String)) (p : String) :
    Except String String :=
  ((tree.find? fun e => e.1 == p).map (·.2)).getD (.error "missing")

/-- `ClojureAnalyzer.analyze_directory` (source lines 197-205): discover,
then analyze each discovered file in order. -/
def analyze_directory (tree : List (String × Except String String)) : List Issue :=
  process_files ((find_clj_files (tree.map (·.1))).map fun p => (p, tree_read tree p))

/-- Python tuple comparison `(int, str) <= (int, str)`, the order
`sorted(by_file[file_path])` sorts by (source line 224). -/
def pair_le (a b : Nat × String) : Prop :=
  a.1 < b.1 ∨ (a.1 = b.1 ∧ a.2 ≤ b.2)

instance : DecidableRel pair_le := fun a b => by
  unfold pair_le; infer_instance

instance : IsTotal (Nat × String) pair_le := by
  constructor
  intro a b
  rcases Nat.lt_trichotomy a.1 b.1 with h | h | h
  · exact Or.inl (Or.inl h)
  · rcases le_total a.2 b.2 with h2 | h2
    · exact Or.inl (Or.inr ⟨h, h2⟩)
    · exact Or.inr (Or.inr ⟨h.symm, h2⟩)
  · exact Or.inr (Or.inl h)

instance : IsTrans (Nat × String) pair_le := by
  constructor
  intro a b c hab hbc
  rcases hab with h1 | ⟨e1, l1⟩
  · rcases hbc with h2 | ⟨e2, _⟩
    · exact Or.inl (h1.trans h2)
    · exact Or.inl (e2 ▸ h1)
  · rcases hbc with h2 | ⟨e2, l2⟩
    · exact Or.inl (e1 ▸ h2)
    · exact Or.inr ⟨e1.trans e2, le_trans l1 l2⟩

/-- `defaultdict` key order (source lines 217-219): first occurrence
order, duplicates removed. -/
def dedup_first (seen : List String) : List String → List String
  | [] => []
  | x :: xs =>
    if seen.contains x then dedup_first seen xs
    else x :: dedup_first (x :: seen) xs

/-- The lexicographically sorted file paths the report iterates over
(source line 221). -/
def report_files (issues : List Issue) : List String :=
  List.insertionSort (· ≤ ·) (dedup_first [] (issues.map (·.file)))

/-- One file's `(line, message)` entries, sorted as on source line 224. -/
def report_entries (issues : List Issue) (f : String) : List (Nat × String) :=
  List.insertionSort pair_le
    ((issues.filter fun i => i.file == f).map fun i => (i.line, renderMessage i.message))

/-- Python `f"{n:4d}"` for a natural number. -/
def pad4 (n : Nat) : String :=
  let s := toString n
  String.mk (List.replicate (4 - s.length) ' ') ++ s

/-- `ClojureAnalyzer.print_report` (source lines 207-225): the sequence of
strings printed, one list entry per `print` call. -/
def report_lines (issues : List Issue) : List String :=
  if issues.isEmpty then ["[OK] 未发现声明顺序异常！"]
  else
    ("发现 " ++ toString issues.length ++ " 个潜在问题：\n") ::
    String.mk (List.replicate 80 '=') ::
    (report_files issues).flatMap fun f =>
      ("\n文件: " ++ f) ::
      String.mk (List.replicate 80 '-') ::
      (report_entries issues f).map fun e =>
        "  行 " ++ pad4 e.1 ++ ": " ++ e.2

/-- `main` (source lines 228-244): the full stdout print sequence and the
process exit status, as a function of the root path string and the file
tree. -/
def main_run (root : String) (tree : List (String × Except String String)) :
    List String × Nat :=
  let issues := analyze_directory tree
  (("分析目录: " ++ root ++ "\n") ::
   ("找到 " ++ toString (find_clj_files (tree.map (·.1))).length ++
      " 个Clojure文件，开始分析...\n") ::
   report_lines issues,
   if issues.isEmpty then 0 else 1)

/-- The Bool form of the detector's qualifying condition (§3 invariant of
the spec): undeclared, defined, and defined strictly after the call. -/
def qualifies (r : ParseResult) (L : Nat) (s : String) : Bool :=
  !(r.declares.contains s) &&
    (match dictLookup r.definitions s with
     | some d => decide (L < d)
     | none => false)

/-- The definition line the detector cites for a symbol (0 placeholder
when undefined, in which case `qualifies` is false). -/
def cited_def_line (r : ParseResult) (s : String) : Nat :=
  (dictLookup r.definitions s).getD 0

/-- Recognizer for a violation of the triple `(f, L, s)`: right file,
right call line, and a violation message naming the symbol. -/
def is_viol_for (f : String) (L : Nat) (s : String) (i : Issue) : Bool :=
  i.file == f && i.line == L &&
    (match i.message with
     | .orderViolation s' _ _ => s' == s
     | .analysisError _ => false)

/-- The symbol a violation message is about, if any. -/
def viol_sym : Message → Option String
  | .orderViolation s _ _ => some s
  | .analysisError _ => none

/-! ### Helper lemmas -/

theorem dictLookup_insert (k : String) (v : Nat) (d : List (String × Nat)) (s : String) :
    dictLookup (dictInsert k v d) s = if s = k then some v else dictLookup d s := by
  induction d with
  | nil =>
    simp only [dictInsert, dictLookup]
    by_cases h : s = k
    · simp [h]
    · simp [h, Ne.symm h]
  | cons e rest ih =>
    obtain ⟨k', v'⟩ := e
    simp only [dictInsert]
    by_cases hk : k' = k
    · subst hk
      by_cases hs : s = k'
      · simp [dictLookup, hs]
      · simp [dictLookup, hs, Ne.symm hs]
    · simp only [hk, if_false, dictLookup]
      by_cases hs : k' = s
      · have hsk : ¬ s = k := fun h => hk (hs.trans h)
        simp [hs, hsk]
      · simp [hs, ih]

theorem dictLookup_insert_self (k : String) (v : Nat) (d : List (String × Nat)) :
    dictLookup (dictInsert k v d) k = some v := by
  simp [dictLookup_insert]

theorem dict_fold_last (evs : List (Nat × String)) (d0 : List (String × Nat)) (s : String) :
    dictLookup (evs.foldl (fun d e => dictInsert e.2 e.1 d) d0) s =
      match evs.reverse.find? (fun e => e.2 == s) with
      | some e => some e.1
      | none => dictLookup d0 s := by
  induction evs generalizing d0 with
  | nil => simp
  | cons e evs ih =>
    rw [List.foldl_cons, ih, List.reverse_cons, List.find?_append]
    rcases h : evs.reverse.find? (fun x => x.2 == s) with _ | x
    · rw [h]
      simp only [Option.none_or]
      by_cases hs : e.2 = s
      · have hb : (e.2 == s) = true := beq_iff_eq.mpr hs
        simp [List.find?, hb, hs, dictLookup_insert]
      · have hb : (e.2 == s) = false := by
          simp [hs]
        simp [List.find?, hb, dictLookup_insert, Ne.symm hs]
    · rw [h]
      simp only [Option.or_some]

theorem defs_fold_eq (acts : List (Nat × List Char)) (d0 : List (String × Nat)) :
    acts.foldl (fun d p =>
        match def_event p.2 with
        | some s => dictInsert s p.1 d
        | none => d) d0 =
      (acts.filterMap fun p => (def_event p.2).map fun s => (p.1, s)).foldl
        (fun d e => dictInsert e.2 e.1 d) d0 := by
  induction acts generalizing d0 with
  | nil => rfl
  | cons p acts ih =>
    rcases h : def_event p.2 with _ | s <;>
      simp [List.filterMap_cons, h, ih]

theorem qualifies_iff (r : ParseResult) (L : Nat) (s : String) :
    qualifies r L s = true ↔
      r.declares.contains s = false ∧
        ∃ d, dictLookup r.definitions s = some d ∧ L < d := by
  unfold qualifies
  rcases h : dictLookup r.definitions s with _ | d
  · simp [h]
  · simp [h, Bool.and_eq_true, Bool.not_eq_true']

theorem viol_check_qual (f : String) (r : ParseResult) (L : Nat) (s : String) :
    viol_check f r (L, s) =
      if qualifies r L s then
        some ⟨f, L, .orderViolation s L (cited_def_line r s)⟩
      else none := by
  unfold viol_check qualifies cited_def_line
  rcases h : dictLookup r.definitions s with _ | d
  · rcases hc : r.declares.contains s <;> simp [h, hc]
  · rcases hc : r.declares.contains s
    · by_cases hlt : L < d <;> simp [h, hc, hlt]
    · simp [h, hc]

theorem viol_check_inv {f : String} {r : ParseResult} {c : Nat × String} {i : Issue}
    (h : viol_check f r c = some i) :
    i = ⟨f, c.1, .orderViolation c.2 c.1 (cited_def_line r c.2)⟩ ∧
      qualifies r c.1 c.2 = true := by
  have hq := viol_check_qual f r c.1 c.2
  rw [Prod.mk.eta] at hq
  rw [hq] at h
  by_cases hqq : qualifies r c.1 c.2
  · rw [if_pos hqq] at h
    exact ⟨(Option.some.inj h).symm, hqq⟩
  · rw [if_neg hqq] at h
    cases h

theorem filterMap_viol_filter (f : String) (r : ParseResult) (L : Nat) (s : String)
    (cs : List (Nat × String)) :
    (cs.filterMap (viol_check f r)).filter (is_viol_for f L s) =
      if qualifies r L s then
        List.replicate (cs.count (L, s)) ⟨f, L, .orderViolation s L (cited_def_line r s)⟩
      else [] := by
  induction cs with
  | nil => simp
  | cons c cs ih =>
    obtain ⟨l', s'⟩ := c
    by_cases hc : ((l', s') : Nat × String) = (L, s)
    · rw [hc]
      have hv := viol_check_qual f r L s
      by_cases hq : qualifies r L s
      · rw [if_pos hq] at hv
        rw [List.filterMap_cons_some hv,
            List.filter_cons_of_pos (by simp [is_viol_for]),
            ih, if_pos hq, if_pos hq, List.count_cons_self, List.replicate_succ]
      · rw [if_neg hq] at hv
        rw [List.filterMap_cons_none hv, ih, if_neg hq, if_neg hq]
    · have hcount : List.count ((L, s) : Nat × String) ((l', s') :: cs) =
          List.count ((L, s) : Nat × String) cs :=
        List.count_cons_of_ne (Ne.symm hc) cs
      rcases hv : viol_check f r (l', s') with _ | i
      · rw [List.filterMap_cons_none hv, ih, hcount]
      · obtain ⟨hi, _⟩ := viol_check_inv hv
        have hne : ¬ (l' = L ∧ s' = s) := by
          intro hand
          exact hc (by rw [hand.1, hand.2])
        have hdrop : is_viol_for f L s i = false := by
          subst hi
          by_cases h1 : l' = L
          · have h2 : ¬ s' = s := fun h2 => hne ⟨h1, h2⟩
            simp [is_viol_for, h1, h2]
          · simp [is_viol_for, h1]
        rw [List.filterMap_cons_some hv,
            List.filter_cons_of_neg (by simp [hdrop]),
            ih, hcount]

theorem meta_sub_core_none {t : List Char} (h : ∀ c ∈ t, py_space c = false) :
    meta_sub_core t = none := by
  unfold meta_sub_core
  by_cases he : (t.takeWhile word_colon).isEmpty
  · rw [if_pos he]
  · rw [if_neg he]
    rcases hd : t.drop (t.takeWhile word_colon).length with _ | ⟨c, rest⟩
    · rfl
    · have hc : c ∈ t := List.drop_subset _ t (hd.symm ▸ List.mem_cons_self c rest)
      simp [h c hc]

theorem meta_sub_noop {s : List Char} (h : ∀ c ∈ s, py_space c = false) :
    meta_sub s = s := by
  have hcore : meta_sub_core s = none := meta_sub_core_none h
  have hdrop : meta_sub_core (s.drop 1) = none :=
    meta_sub_core_none fun c hc => h c (List.drop_subset 1 s hc)
  unfold meta_sub
  by_cases hh : s.head? = some '^'
  · rw [if_pos hh, hdrop, hcore]
  · rw [if_neg hh, hcore]

theorem parse_file_definitions (content : String) :
    (parse_file content).definitions =
      (active_lines content).foldl
        (fun d p =>
          match def_event p.2 with
          | some s => dictInsert s p.1 d
          | none => d) [] := rfl

/-! ### Claim theorems -/

/-- C1: for every extraction record `r`, file `f`, call line `L` and symbol
`s`, the Detector's qualifying condition holds exactly when `s` is present in
`definitions`, absent from `declares`, and its recorded definition line is
strictly greater than `L`; and the violations recorded for the triple
`(f, L, s)` are exactly one per occurrence of `(L, s)` in the calls sequence
when that condition holds (each citing the recorded definition line) and none
otherwise — so in particular a symbol present in neither `definitions` nor
`declares` is never reported. -/
theorem detector_violation_iff (f : String) (r : ParseResult) (L : Nat) (s : String) :
    (qualifies r L s = true ↔
      r.declares.contains s = false ∧
        ∃ d, dictLookup r.definitions s = some d ∧ L < d) ∧
    (detect f r).filter (is_viol_for f L s) =
      (if qualifies r L s then
        List.replicate (r.calls.count (L, s))
          ⟨f, L, .orderViolation s L (cited_def_line r s)⟩
      else []) :=
  ⟨qualifies_iff r L s, filterMap_viol_filter f r L s r.calls⟩

/-- C2 counterexample: in a file defining `foo` on line 1 and again on line
2, the recorded definition line is 2 — the later definition overwrites the
first, contradicting the claim that the first occurrence wins. -/
theorem first_occurrence_wins_counterexample :
    dictLookup (parse_file "(def foo 1)\n(def foo 2)").definitions "foo" = some 2 ∧
      (some 2 : Option Nat) ≠ some 1 :=
  ⟨rfl, by decide⟩

/-- C2 amended: when a symbol matches a definition form on several lines,
the definitions mapping retains the line number of the last (textually
latest) matching definition; each later definition overwrites the recorded
line number. -/
theorem definitions_last_write_wins (content : String) (s : String) :
    dictLookup (parse_file content).definitions s = last_def_line content s := by
  rw [parse_file_definitions, defs_fold_eq, dict_fold_last]
  unfold last_def_line def_events
  rcases h : ((active_lines content).filterMap fun p =>
      (def_event p.2).map fun s => (p.1, s)).reverse.find? (fun e => e.2 == s)
    with _ | e
  · rw [h]
    rfl
  · rw [h]
    rfl

def c3_file : String := "(defn main [] (helper))\n\n(defn helper [] 1)"

def c3_variant : String := "(defn main [] (helper 1))\n\n(defn helper [] 1)"

/-- C3 counterexample: on the claimed input — `(defn main [] (helper))` on
line 1 and `(defn helper [] 1)` on line 3, no declare — the analyzer emits
zero violations, not exactly one: `(helper)` is immediately followed by `)`
rather than whitespace, so the call pattern never recognizes it. -/
theorem zero_arg_scenario_counterexample :
    analyze_file ("test.clj", Except.ok c3_file) = [] ∧
      (analyze_file ("test.clj", Except.ok c3_file)).length ≠ 1 := by
  constructor
  · rfl
  · rw [show analyze_file ("test.clj", Except.ok c3_file) = [] from rfl]
    decide

/-- C3 amended: on the file with the zero-argument call `(helper)` the
analyzer emits zero violations (the call regex requires whitespace after
the head symbol), while on the variant whose line 1 is
`(defn main [] (helper 1))` it emits exactly one violation citing call
line 1 and definition line 3. -/
theorem zero_arg_scenario_amended :
    analyze_file ("test.clj", Except.ok c3_file) = [] ∧
    analyze_file ("test.clj", Except.ok c3_variant) =
      [⟨"test.clj", 1, .orderViolation "helper" 1 3⟩] :=
  ⟨rfl, by decide⟩

def c4_file : String := "(defn ^:private foo [])"

/-- C4: the metadata substitution of source line 75 is the identity on every
whitespace-free token — and the captured token never contains whitespace —
so metadata annotation tokens are never normalized away: on
`(defn ^:private foo [])` the scanner records the symbol `^:private`, not
the bare binding name `foo`. -/
theorem metadata_never_stripped :
    (∀ s : List Char, (∀ c ∈ s, py_space c = false) → meta_sub s = s) ∧
    dictLookup (parse_file c4_file).definitions "^:private" = some 1 ∧
    dictLookup (parse_file c4_file).definitions "foo" = none :=
  ⟨fun _ h => meta_sub_noop h, rfl, rfl⟩

/-- C5: a symbol contained in the `declares` set of an extraction record
generates no violation at all in that record — every call entry for it is
skipped, whatever the call and definition lines are. -/
theorem declared_symbol_never_reported (f : String) (r : ParseResult) (s : String)
    (h : r.declares.contains s = true) :
    (detect f r).filter (fun i => viol_sym i.message == some s) = [] := by
  rw [List.filter_eq_nil_iff]
  intro i hi
  unfold detect at hi
  obtain ⟨c, _, hv⟩ := List.mem_filterMap.mp hi
  obtain ⟨hi_eq, hq⟩ := viol_check_inv hv
  obtain ⟨hdecl, -⟩ := (qualifies_iff r c.1 c.2).mp hq
  subst hi_eq
  simp only [viol_sym]
  intro hbe
  have hc2 : c.2 = s := by
    simpa using hbe
  rw [hc2] at hdecl
  rw [hdecl] at h
  cases h

def c5_file : String :=
  "(declare helper)\n(defn main [] (helper 1))\n\n\n(defn helper [] 1)"

theorem declared_symbol_never_reported_witness :
    (detect "demo.clj" (parse_file c5_file)).filter
      (fun i => viol_sym i.message == some "helper") = [] :=
  declared_symbol_never_reported "demo.clj" (parse_file c5_file) "helper" (by decide)

/-- C6: every identifier that reaches the calls sequence of a line passed
none of the classifier's exclusion rules — so any head identifier that is
allowlisted, or dotted without a recognized namespace-dot start, or
uppercase-initial or containing `$`, is excluded from the calls sequence;
and the classification depends only on the identifier and the namespace
strings, not on any definition or declaration state. -/
theorem classifier_excludes (nss : List String) (n : Nat) (line : List Char)
    (L : Nat) (s : String) (h : (L, s) ∈ calls_of_line nss n line) :
    allowlist.contains s = false ∧ dot_excluded nss s = false ∧
      upper_or_dollar s = false := by
  unfold calls_of_line at h
  obtain ⟨x, _, hsome⟩ := List.mem_filterMap.mp h
  by_cases hk : keep_call nss x
  · rw [if_pos hk] at hsome
    have hp : ((n, x) : Nat × String) = (L, s) := Option.some.inj hsome
    have hxs : x = s := (Prod.mk.injEq n x L s ▸ hp).2
    subst hxs
    unfold keep_call at hk
    simp only [Bool.and_eq_true, Bool.not_eq_true'] at hk
    exact ⟨hk.1.1, hk.1.2, hk.2⟩
  · rw [if_neg hk] at hsome
    cases hsome

theorem classifier_excludes_witness :
    allowlist.contains "foo" = false ∧ dot_excluded [] "foo" = false ∧
      upper_or_dollar "foo" = false :=
  classifier_excludes [] 1 ("(foo bar)".data) 1 "foo" (by decide)

/-- C7: the process exit status is 0 exactly when the run recorded no
issues (synthetic per-file failure issues included, since they are part of
`analyze_directory`'s output), and 1 exactly otherwise. -/
theorem exit_code_zero_iff_no_issues (root : String)
    (tree : List (String × Except String String)) :
    ((main_run root tree).2 = 0 ↔ analyze_directory tree = []) ∧
    ((main_run root tree).2 = 1 ↔ analyze_directory tree ≠ []) := by
  unfold main_run
  rcases h : analyze_directory tree with _ | ⟨i, is⟩ <;> simp [h]

/-- C8: a file whose processing fails contributes exactly one synthetic
issue, with line number 0 and the failure description, and the files
before and after it are processed exactly as they would be alone — one bad
file never aborts the run. -/
theorem file_failure_isolated (pre post : List FileEntry) (p e : String) :
    process_files (pre ++ (p, Except.error e) :: post) =
      process_files pre ++ ⟨p, 0, Message.analysisError e⟩ :: process_files post := by
  unfold process_files
  rw [List.flatMap_append, List.flatMap_cons]
  rfl

/-- C9: the analyzer's stdout and exit code are a pure function of the root
string and the file tree, so two runs over an unchanged tree are
byte-identical; files are discovered in sorted path order, the report's file
blocks are sorted lexicographically by path, and each file's entries are
sorted by (line number, message string). -/
theorem report_deterministic_sorted (root : String)
    (tree : List (String × Except String String)) (issues : List Issue)
    (f : String) :
    main_run root tree = main_run root tree ∧
    List.Sorted (· ≤ ·) (find_clj_files (tree.map (·.1))) ∧
    List.Sorted (· ≤ ·) (report_files issues) ∧
    List.Sorted pair_le (report_entries issues f) :=
  ⟨rfl, List.sorted_insertionSort (· ≤ ·) _, List.sorted_insertionSort (· ≤ ·) _,
    List.sorted_insertionSort pair_le _⟩

/-- C10: a path is discovered exactly when it is in the tree, has the
`.clj` suffix, and does not contain `build` anywhere as a substring of the
full path — so `rebuild.clj` and files under a `builders/` directory are
excluded even though no path component is exactly a build directory. -/
theorem build_substring_excluded (paths : List String) (p : String) :
    (p ∈ find_clj_files paths ↔
      p ∈ paths ∧ ".clj".data.isSuffixOf p.data = true ∧
        contains_sub "build".data p.data = false) ∧
    find_clj_files ["src/rebuild.clj", "builders/x.clj", "src/a.clj"] =
      ["src/a.clj"] := by
  constructor
  · unfold find_clj_files
    rw [(List.perm_insertionSort (· ≤ ·) _).mem_iff, List.mem_filter]
    simp [Bool.and_eq_true, Bool.not_eq_true', and_assoc]
  · rfl

end CljAnaly
